import Mathlib

/-!
Verification of the timing-mitigation password-hashing core
(`api-server-flask/password_hashing.py`) against its specification.

Modelling conventions:
* Python values returned by `basic_fib_hash` are either the boolean `False`
  (on empty input) or a hex-digest string; we model them with `PyVal`.
* The SHA-256 hex digest is an external cryptographic primitive; every
  definition that uses it is parameterised by a function
  `sha256hex : String → String`, and theorems that need its fixed output
  width take the hypothesis `∀ s, (sha256hex s).length = 64`.
* Wall-clock durations and delay intervals (Python floats) are modelled as
  exact rationals `ℚ`.
* Python dicts keyed by strings are modelled as association lists in
  insertion order, matching dict iteration order.
-/

/-- A Python value returned by `basic_fib_hash`: the boolean `False` on the
empty-input path (`if not password: return False`), or the hex-digest string
otherwise. -/
inductive PyVal where
  | pyBool (b : Bool)
  | pyStr (s : String)
deriving DecidableEq

/-- The two-term recurrence state after `n` executions of `a, b = b, a + b`
starting from `a, b = 1, 1` (the inner loop of `basic_fib_hash`). -/
def fib_pair : Nat → Nat × Nat
  | 0 => (1, 1)
  | n + 1 =>
    let p := fib_pair n
    (p.2, p.1 + p.2)

/-- Contribution of one character to the running hash value: the final `b`
after advancing the recurrence `ord(char)` times (`ascii_val = ord(char)`,
then `hash_value += b`). -/
def char_term (c : Char) : Nat := (fib_pair c.toNat).2

/-- The running sum accumulated over the characters of the (already
truncated) password in `basic_fib_hash`. -/
def hash_value (s : String) : Nat := (s.data.map char_term).sum

/-- `password = password[:max_length]` applied only when
`len(password) > max_length`, as in the source. -/
def truncate (s : String) (maxLength : Nat) : String :=
  if s.length > maxLength then String.mk (s.data.take maxLength) else s

/-- `basic_fib_hash(password, max_length=50)`: returns the Python boolean
`False` on empty input, otherwise truncates to `maxLength` characters,
accumulates the Fibonacci-style running sum, and normalises it through the
fixed-width hash `sha256hex` applied to the decimal string of the sum
(`hashlib.sha256(str(hash_value).encode()).hexdigest()`). -/
def basic_fib_hash (sha256hex : String → String) (password : String)
    (maxLength : Nat) : PyVal :=
  if password.isEmpty then PyVal.pyBool false
  else
    PyVal.pyStr (sha256hex (toString (hash_value (truncate password maxLength))))

/-- One advance of the two-term recurrence, spec-style: `(a,b) := (b, a+b)`. -/
def fib_step (p : Nat × Nat) : Nat × Nat := (p.2, p.1 + p.2)

/-- The spec's description of the per-character work: advance the recurrence
exactly `n` times from `(1,1)` and take the final term. -/
def spec_term (n : Nat) : Nat := (fib_step^[n] (1, 1)).2

/-- The spec's description of the running sum: for each character of the
input truncated to the maximum accepted length, add the final recurrence
term obtained by advancing the recurrence code-point-many times. -/
def spec_sum (p : String) (maxLength : Nat) : Nat :=
  ((p.data.take maxLength).map (fun c => spec_term c.toNat)).sum

/-- A stored user record: `{'email': ..., 'password_hashes': [...]}`. -/
structure UserData where
  email : String
  password_hashes : List PyVal
deriving DecidableEq

/-- `UserStore`: the `self.users` dict, modelled as an association list in
insertion order. -/
structure UserStore where
  users : List (String × UserData)
deriving DecidableEq

/-- Dict lookup `self.users[username]` / membership `username in self.users`. -/
def UserStore.lookup (store : UserStore) (username : String) : Option UserData :=
  (store.users.find? (fun p => p.1 == username)).map Prod.snd

/-- The password permutation hashed at position `i` of registration: the
password itself at `i = 0`, otherwise the password followed by `str(i)`. -/
def modified_password (password : String) (i : Nat) : String :=
  if i == 0 then password else password ++ toString i

/-- `UserStore.register_user`: refuses a username that already exists,
otherwise stores the email together with the digests of the five password
permutations, and reports `(success, message)`. The updated store is
returned explicitly since the embedding is state-passing. -/
def register_user (sha256hex : String → String) (store : UserStore)
    (username email password : String) : (Bool × String) × UserStore :=
  if (store.lookup username).isSome then
    ((false, "Username already exists"), store)
  else
    let hashes := (List.range 5).map
      (fun i => basic_fib_hash sha256hex (modified_password password i) 50)
    ((true, "User registered successfully"),
      ⟨store.users ++ [(username, ⟨email, hashes⟩)]⟩)

/-- The keys of the `MITIGATION_SYSTEMS` dict: `'none'`, `'slow'`,
`'halving'`. -/
def MITIGATION_SYSTEMS_keys : List String := ["none", "slow", "halving"]

/-- The comparison loop of `verify_password`: walks the stored hashes in
order and exits (`break`) at the first position whose stored hash equals the
test hash; `password_match` stays `False` when no position matches. -/
def match_loop (test_hash : PyVal) : List PyVal → Bool
  | [] => false
  | stored :: rest => if test_hash == stored then true else match_loop test_hash rest

/-- `UserStore.verify_password`: returns `False` when the username is
unknown or the mitigation name is not a key of `MITIGATION_SYSTEMS`;
otherwise computes `test_hash = mitigation_func(basic_fib_hash, password)`
and runs the comparison loop against the five stored hashes. In the
sequential value semantics every registered mitigator hands back the digest
it computed unchanged: the `'none'` lambda and `HalvingBlackbox.__call__`
return it directly, and `SlowBlackbox.__call__` republishes it through its
queues and returns it (falling back to the direct result on timeout), so
`test_hash` is the digest of the supplied password. -/
def verify_password (sha256hex : String → String) (store : UserStore)
    (username password mitigation_system : String) : Bool :=
  if (store.lookup username).isNone ∨ mitigation_system ∉ MITIGATION_SYSTEMS_keys then
    false
  else
    let user_data := (store.lookup username).getD ⟨"", []⟩
    let test_hash := basic_fib_hash sha256hex password 50
    match_loop test_hash user_data.password_hashes

/-- The verification outcome described by the spec, for comparison with the
source: a mitigated digest comparison is evaluated at each of the five
stored positions and the result is the logical AND across all of them, with
no short-circuit. -/
def verify_password_claim (sha256hex : String → String) (store : UserStore)
    (username password mitigation_system : String) : Bool :=
  if (store.lookup username).isNone ∨ mitigation_system ∉ MITIGATION_SYSTEMS_keys then
    false
  else
    let user_data := (store.lookup username).getD ⟨"", []⟩
    let test_hash := basic_fib_hash sha256hex password 50
    user_data.password_hashes.all (fun stored => test_hash == stored)

/-- The mutable state of a `SlowBlackbox` instance: pending `result_queue`,
published `output_queue`, current `interval`, the `doubled` flag (local to
`_process_queue`, initialised `True`), and `total_processed`. -/
structure SlowState (α : Type) where
  result_queue : List α
  output_queue : List α
  interval : ℚ
  doubled : Bool
  total_processed : Nat
deriving DecidableEq

/-- One wake-up of `SlowBlackbox._process_queue` (the body of the worker
loop, executed under the lock): if the result queue is empty and the
`doubled` flag is set, double the interval and clear the flag; otherwise, if
the queue is non-empty, dequeue one item, publish it on the output queue,
increment `total_processed`, and set the flag; an empty queue with the flag
clear changes nothing. -/
def slow_step {α : Type} (s : SlowState α) : SlowState α :=
  if s.result_queue.isEmpty && s.doubled then
    { s with interval := s.interval * 2, doubled := false }
  else
    match s.result_queue with
    | [] => s
    | r :: rest =>
      { s with
        result_queue := rest
        output_queue := s.output_queue ++ [r]
        total_processed := s.total_processed + 1
        doubled := true }

/-- A caller of `SlowBlackbox.__call__` putting a computed result on the
pending queue (`self.result_queue.put(result)` under the lock). -/
def slow_put {α : Type} (x : α) (s : SlowState α) : SlowState α :=
  { s with result_queue := s.result_queue ++ [x] }

/-- An atomic step the environment can take on a `SlowBlackbox` instance
between two observations: one worker wake-up or one caller enqueue. -/
inductive SlowEvt (α : Type) where
  | work
  | put (x : α)

/-- Run a sequence of worker wake-ups and caller enqueues on a
`SlowBlackbox` state. -/
def slow_run {α : Type} : List (SlowEvt α) → SlowState α → SlowState α
  | [], s => s
  | SlowEvt.work :: rest, s => slow_run rest (slow_step s)
  | SlowEvt.put x :: rest, s => slow_run rest (slow_put x s)

/-- `SlowBlackbox.flush` modelled over the sequence of observations its
polling loop makes: each list element is the elapsed time and the instance
state seen at one evaluation of the loop guard. The loop exits — returning
the state whose `total_processed` the caller reads — at the first
observation whose queue is empty or whose elapsed time exceeds the timeout;
`none` means the supplied observation sequence ended before the loop exited. -/
def flush_poll {α : Type} (timeout : ℚ) :
    List (ℚ × SlowState α) → Option (ℚ × SlowState α)
  | [] => none
  | (t, s) :: rest =>
    if s.result_queue.isEmpty then some (t, s)
    else if timeout < t then some (t, s)
    else flush_poll timeout rest

/-- The mutable state of a `HalvingBlackbox` instance: current quantum `q`,
its initial value, the pending queue, and the emission counters. -/
structure HalvingState (α : Type) where
  q : ℚ
  initial_q : ℚ
  queue : List α
  total_printed : Nat
  expected_outputs : Nat
deriving DecidableEq

/-- One wake-up of `HalvingBlackbox._print_queue` (loop body under the
lock): double `q` when the queue is empty; otherwise dequeue one item, emit
it (returned alongside the new state), increment `total_printed`, and halve
`q` when the queue is still non-empty afterwards. -/
def halving_step {α : Type} (s : HalvingState α) : Option α × HalvingState α :=
  match s.queue with
  | [] => (none, { s with q := s.q * 2 })
  | r :: rest =>
    let s1 := { s with queue := rest, total_printed := s.total_printed + 1 }
    (some r, if rest.isEmpty then s1 else { s1 with q := s1.q / 2 })

/-- `HalvingBlackbox.__call__`: runs the cache-pressure step (no effect on
the value state), executes `func(*args)`, appends the result to the queue
under the lock, and returns the result to the caller directly. -/
def halving_call {α β : Type} (s : HalvingState β) (f : α → β) (x : α) :
    β × HalvingState β :=
  let result := f x
  (result, { s with queue := s.queue ++ [result] })

/-- Which mitigation classes define a `flush` method in the source:
`SlowBlackbox` does; `HalvingBlackbox` defines only `start`, `stop`,
`flush_cache`, `_print_queue` and `__call__`, and the `'none'` entry is a
bare lambda. -/
def has_flush : String → Bool
  | "slow" => true
  | _ => false

/-- Which registered mitigation entries are non-trivial (carry a queue and a
worker), as opposed to the `'none'` pass-through lambda. -/
def nontrivial_mitigation : String → Bool
  | "slow" => true
  | "halving" => true
  | _ => false

/-- One per-password entry of the result dicts built by
`analyze_mitigation_system`; `calculate_epoch_changes` reads only the
`is_correct` flag and the raw `times` list (durations as exact rationals). -/
structure TrialResult where
  password : String
  is_correct : Bool
  times : List ℚ
deriving DecidableEq

/-- The value `calculate_epoch_changes` records for one mitigation: a
numeric score, the `"N/A - insufficient data"` string, or an
`"Error in calculation: ..."` string (raised when `statistics.stdev` is
given fewer than two samples). -/
inductive EpochResult where
  | score (n : Nat)
  | insufficientData
  | calcError
deriving DecidableEq

/-- `min` of a non-empty Python list; 0 is never reached because every call
site is guarded by a non-emptiness check. -/
def list_min : List ℚ → ℚ
  | [] => 0
  | x :: xs => xs.foldl min x

/-- `max` of a non-empty Python list; 0 is never reached because every call
site is guarded by a non-emptiness check. -/
def list_max : List ℚ → ℚ
  | [] => 0
  | x :: xs => xs.foldl max x

/-- `statistics.mean`. -/
def list_mean (l : List ℚ) : ℚ := l.sum / l.length

/-- The sample variance `Σ (x - mean)² / (n - 1)`; `statistics.stdev` is its
square root. -/
def sample_variance (l : List ℚ) : ℚ :=
  (l.map (fun x => (x - list_mean l) ^ 2)).sum / ((l.length : ℚ) - 1)

/-- The test `abs(mean_correct - mean_incorrect) > std_correct +
std_incorrect` of `calculate_epoch_changes`, expressed over the variances
without square roots: for `d ≥ 0` and variances `vc, vi ≥ 0`,
`d > √vc + √vi` holds exactly when `d² - vc - vi > 0` and
`(d² - vc - vi)² > 4·vc·vi` (proved below in `distinguishable_iff_sqrt`). -/
def distinguishable (d vc vi : ℚ) : Bool :=
  decide (0 < d ^ 2 - vc - vi) && decide (4 * vc * vi < (d ^ 2 - vc - vi) ^ 2)

/-- `all_correct`: the times of the entries flagged correct, flattened in
recorded order. -/
def correct_times_of (results : List TrialResult) : List ℚ :=
  (results.filter (fun r => r.is_correct)).flatMap (fun r => r.times)

/-- `all_incorrect`: the times of the entries flagged incorrect, flattened
in recorded order. -/
def incorrect_times_of (results : List TrialResult) : List ℚ :=
  (results.filter (fun r => !r.is_correct)).flatMap (fun r => r.times)

/-- The per-mitigation body of `calculate_epoch_changes`: flatten the times
of correct and of incorrect entries (in recorded order); report
insufficient data when either is empty; report 1 on completely separated
ranges; otherwise compare the mean gap against the sum of the sample
standard deviations, which raises (caught as an error result) when either
group has fewer than two samples. -/
def epoch_for (results : List TrialResult) : EpochResult :=
  if (correct_times_of results).isEmpty || (incorrect_times_of results).isEmpty then
    EpochResult.insufficientData
  else if list_max (correct_times_of results) < list_min (incorrect_times_of results)
      || list_max (incorrect_times_of results) < list_min (correct_times_of results) then
    EpochResult.score 1
  else if (correct_times_of results).length < 2 || (incorrect_times_of results).length < 2 then
    EpochResult.calcError
  else if distinguishable
      |list_mean (correct_times_of results) - list_mean (incorrect_times_of results)|
      (sample_variance (correct_times_of results))
      (sample_variance (incorrect_times_of results)) then
    EpochResult.score 1
  else
    EpochResult.score 0

/-- `TimingAnalyzer.calculate_epoch_changes`: applies `epoch_for` to the
result list of every mitigation, in recorded order. -/
def calculate_epoch_changes (all_results : List (String × List TrialResult)) :
    List (String × EpochResult) :=
  all_results.map (fun p => (p.1, epoch_for p.2))

/-- Count of adjacent-pair transitions where the value changes, walking the
sequence in order (the spec's epoch-change count). -/
def count_changes : List ℤ → Nat
  | [] => 0
  | [_] => 0
  | a :: b :: rest => (if a ≠ b then 1 else 0) + count_changes (b :: rest)

/-- The leakage score the spec describes (`scoreLeakage`): every recorded
duration of a strategy, in recorded order, is turned into a bucket by
dividing by `quantumWidth` and rounding to the nearest integer, and the
score is the number of adjacent bucket changes. Kept for comparison with
`calculate_epoch_changes`, which is what the source implements. -/
def scoreLeakage_claim (all_results : List (String × List TrialResult))
    (quantumWidth : ℚ) : List (String × Nat) :=
  all_results.map (fun p =>
    (p.1, count_changes ((p.2.flatMap (fun r => r.times)).map
      (fun d => round (d / quantumWidth)))))

/-- A concrete stand-in for the SHA-256 hex digest used by witnesses and
counterexamples: the identity on the decimal string of the running sum
(injective on the inputs used, so distinct sums give distinct digests). -/
def sha_id : String → String := fun s => s

/-- A concrete stand-in for the SHA-256 hex digest with the documented
64-character output width. -/
def sha_const64 : String → String := fun _ => String.mk (List.replicate 64 'x')

/-- A concrete analyzer result set used to exercise
`calculate_epoch_changes`: one strategy whose correct durations are 1 s and
2 s and whose incorrect durations are 5 s and 6 s. -/
def res_c4 : List (String × List TrialResult) :=
  [("slow", [⟨"p", true, [1, 2]⟩, ⟨"q", false, [5, 6]⟩])]

/- ------------------------------------------------------------------ -/
/- Helper lemmas                                                       -/
/- ------------------------------------------------------------------ -/

theorem match_loop_eq_any (t : PyVal) (l : List PyVal) :
    match_loop t l = l.any (fun stored => t == stored) := by
  induction l with
  | nil => rfl
  | cons h rest ih =>
    unfold match_loop
    cases hct : (t == h)
    · simp [hct, ih]
    · simp [hct]

theorem register_existing (sha256hex : String → String) (store : UserStore)
    (u e p : String) (h : (store.lookup u).isSome) :
    register_user sha256hex store u e p = ((false, "Username already exists"), store) := by
  unfold register_user
  simp [h]

theorem register_fresh (sha256hex : String → String) (store : UserStore)
    (u e p : String) (h : (store.lookup u).isSome = false) :
    (register_user sha256hex store u e p).2 =
      ⟨store.users ++ [(u, ⟨e, (List.range 5).map
        (fun i => basic_fib_hash sha256hex (modified_password p i) 50)⟩)]⟩ := by
  unfold register_user
  simp [h]

theorem lookup_register_fresh (sha256hex : String → String) (store : UserStore)
    (u e p : String) (h : (store.lookup u).isSome = false) :
    ((register_user sha256hex store u e p).2).lookup u =
      some ⟨e, (List.range 5).map
        (fun i => basic_fib_hash sha256hex (modified_password p i) 50)⟩ := by
  rw [register_fresh sha256hex store u e p h]
  unfold UserStore.lookup at h ⊢
  rw [List.find?_append]
  have hf : store.users.find? (fun q => q.1 == u) = none := by
    rcases hfind : store.users.find? (fun q => q.1 == u) with _ | v
    · exact hfind
    · rw [hfind] at h
      simp at h
  rw [hf, List.find?_cons_of_pos _ (by simp)]
  rfl

theorem lookup_register_self (sha256hex : String → String) (store : UserStore)
    (u e p : String) :
    (((register_user sha256hex store u e p).2).lookup u).isSome := by
  by_cases h : (store.lookup u).isSome
  · rw [register_existing sha256hex store u e p h]
    exact h
  · rw [lookup_register_fresh sha256hex store u e p (by simpa using h)]
    rfl

theorem verify_of_lookup (sha256hex : String → String) (store : UserStore)
    (username password mitigation_system : String) (ud : UserData)
    (h : store.lookup username = some ud)
    (hm : mitigation_system ∈ MITIGATION_SYSTEMS_keys) :
    verify_password sha256hex store username password mitigation_system =
      match_loop (basic_fib_hash sha256hex password 50) ud.password_hashes := by
  unfold verify_password
  rw [if_neg]
  · rw [h]
    rfl
  · rw [h]
    simp [hm]

theorem verify_any_of_lookup (sha256hex : String → String) (store : UserStore)
    (username password mitigation_system : String) (ud : UserData)
    (h : store.lookup username = some ud)
    (hm : mitigation_system ∈ MITIGATION_SYSTEMS_keys) :
    verify_password sha256hex store username password mitigation_system =
      ud.password_hashes.any
        (fun stored => basic_fib_hash sha256hex password 50 == stored) := by
  rw [verify_of_lookup sha256hex store username password mitigation_system ud h hm,
    match_loop_eq_any]

theorem verify_claim_of_lookup (sha256hex : String → String) (store : UserStore)
    (username password mitigation_system : String) (ud : UserData)
    (h : store.lookup username = some ud)
    (hm : mitigation_system ∈ MITIGATION_SYSTEMS_keys) :
    verify_password_claim sha256hex store username password mitigation_system =
      ud.password_hashes.all
        (fun stored => basic_fib_hash sha256hex password 50 == stored) := by
  unfold verify_password_claim
  rw [if_neg]
  · rw [h]
    rfl
  · rw [h]
    simp [hm]


/- ------------------------------------------------------------------ -/
/- C1                                                                  -/
/- ------------------------------------------------------------------ -/

/-- C1, counterexample: with the identity stand-in for the fixed-width hash,
register user `"u"` with password `"a"`; the five stored digests (of `"a"`,
`"a1"`, ..., `"a4"`) are pairwise distinct, so only position 0 matches the
supplied correct password, yet `verify_password` returns `true` — whereas
the claimed logical-AND-across-all-five semantics
(`verify_password_claim`) returns `false` on the same input. -/
theorem C1_counterexample :
    verify_password sha_id (register_user sha_id ⟨[]⟩ "u" "e" "a").2 "u" "a" "none" = true ∧
    verify_password_claim sha_id (register_user sha_id ⟨[]⟩ "u" "e" "a").2 "u" "a" "none" = false := by
  constructor
  · decide
  · decide

/-- C1, amended: for a registered identity and a recognised mitigation name,
`verify_password` computes a single mitigated digest of the supplied value
and compares it against the five stored digests in order, returning true
iff at least one positional comparison succeeds (logical OR), with the
comparison loop short-circuiting at the first match. -/
theorem C1_verify_is_any_match (sha256hex : String → String) (store : UserStore)
    (username password mitigation_system : String) (ud : UserData)
    (h : store.lookup username = some ud)
    (hm : mitigation_system ∈ MITIGATION_SYSTEMS_keys) :
    verify_password sha256hex store username password mitigation_system =
      ud.password_hashes.any
        (fun stored => basic_fib_hash sha256hex password 50 == stored) :=
  verify_any_of_lookup sha256hex store username password mitigation_system ud h hm

/-- C1, witness: the amended theorem applied to a concretely registered
user and the supplied password `"a"` under the `"none"` mitigation. -/
theorem C1_witness :
    verify_password sha_id (register_user sha_id ⟨[]⟩ "w" "e" "a").2 "w" "a" "none" =
      (((register_user sha_id ⟨[]⟩ "w" "e" "a").2.lookup "w").getD ⟨"", []⟩).password_hashes.any
        (fun stored => basic_fib_hash sha_id "a" 50 == stored) :=
  C1_verify_is_any_match sha_id (register_user sha_id ⟨[]⟩ "w" "e" "a").2 "w" "a" "none"
    (((register_user sha_id ⟨[]⟩ "w" "e" "a").2.lookup "w").getD ⟨"", []⟩)
    (by decide) (by decide)

/- ------------------------------------------------------------------ -/
/- C2                                                                  -/
/- ------------------------------------------------------------------ -/

/-- C2, counterexample: on the concrete empty input the digest primitive
does return a value — the Python boolean `False`, an ambiguous falsy value
passed back to the caller — rather than failing with `InvalidInputError`. -/
theorem C2_counterexample :
    basic_fib_hash sha_const64 "" 50 = PyVal.pyBool false := rfl

/-- C2, amended: for every empty text input, the digest primitive returns
the Python boolean `False` (an ambiguous falsy value) to the caller instead
of raising `InvalidInputError`. -/
theorem C2_empty_input_returns_false (sha256hex : String → String)
    (password : String) (maxLength : Nat) (h : password.isEmpty = true) :
    basic_fib_hash sha256hex password maxLength = PyVal.pyBool false := by
  unfold basic_fib_hash
  rw [h]
  rfl

/-- C2, witness: the amended theorem applied at the empty string with a
maximum length of 49. -/
theorem C2_witness : basic_fib_hash sha_const64 "" 49 = PyVal.pyBool false :=
  C2_empty_input_returns_false sha_const64 "" 49 rfl

/- ------------------------------------------------------------------ -/
/- C6                                                                  -/
/- ------------------------------------------------------------------ -/

/-- C6: `verify_password` fails closed — whenever the identity is unknown
to the store or the mitigation name is not among the registered keys, it
returns `false`. The translated guard returns before any digest is
computed or any stored record touched, so no exception can be raised on
this path (the embedding stays a total boolean function). -/
theorem C6_verify_fails_closed (sha256hex : String → String) (store : UserStore)
    (username password mitigation_system : String)
    (h : (store.lookup username).isNone = true ∨
      mitigation_system ∉ MITIGATION_SYSTEMS_keys) :
    verify_password sha256hex store username password mitigation_system = false := by
  unfold verify_password
  rcases h with h | h
  · rw [if_pos (Or.inl h)]
  · rw [if_pos (Or.inr h)]

/-- C6, witness: an unknown user in the empty store, and separately an
unregistered mitigation name for a registered user. -/
theorem C6_witness :
    verify_password sha_const64 ⟨[]⟩ "nobody" "p" "none" = false :=
  C6_verify_fails_closed sha_const64 ⟨[]⟩ "nobody" "p" "none" (Or.inl rfl)

/- ------------------------------------------------------------------ -/
/- C7                                                                  -/
/- ------------------------------------------------------------------ -/

/-- C7: registering the same identity twice fails on the second call — it
reports failure with the duplicate-username message — and leaves the store
produced by the first call (hence the originally stored email and digest
sequence) completely unchanged. -/
theorem C7_duplicate_register_rejected (sha256hex : String → String)
    (store : UserStore) (u e p e2 p2 : String) :
    (register_user sha256hex (register_user sha256hex store u e p).2 u e2 p2).1.1 = false ∧
    (register_user sha256hex (register_user sha256hex store u e p).2 u e2 p2).1.2 =
      "Username already exists" ∧
    (register_user sha256hex (register_user sha256hex store u e p).2 u e2 p2).2 =
      (register_user sha256hex store u e p).2 := by
  rw [register_existing sha256hex (register_user sha256hex store u e p).2 u e2 p2
    (lookup_register_self sha256hex store u e p)]
  exact ⟨rfl, rfl, rfl⟩

/- ------------------------------------------------------------------ -/
/- C9                                                                  -/
/- ------------------------------------------------------------------ -/

/-- C9: a user registered with password `p` is also verified by the salted
permutations: for every index `i` in 1..4, supplying `p ++ str(i)` under
the `"none"` mitigation succeeds, because registration stored the digest of
that permutation at position `i` and verification accepts a match against
any one of the five stored digests. -/
theorem C9_salted_permutation_verifies (sha256hex : String → String)
    (store : UserStore) (u e p : String) (i : Nat)
    (hu : (store.lookup u).isSome = false) (h1 : 1 ≤ i) (h4 : i ≤ 4) :
    verify_password sha256hex (register_user sha256hex store u e p).2 u
      (p ++ toString i) "none" = true := by
  rw [verify_any_of_lookup sha256hex (register_user sha256hex store u e p).2 u
    (p ++ toString i) "none"
    ⟨e, (List.range 5).map (fun j => basic_fib_hash sha256hex (modified_password p j) 50)⟩
    (lookup_register_fresh sha256hex store u e p hu) (by decide)]
  rw [List.any_eq_true]
  refine ⟨basic_fib_hash sha256hex (modified_password p i) 50, ?_, ?_⟩
  · exact List.mem_map.mpr ⟨i, List.mem_range.mpr (by omega), rfl⟩
  · have : modified_password p i = p ++ toString i := by
      unfold modified_password
      rw [if_neg (by simp; omega)]
    rw [this]
    simp

/-- C9, witness: registering `"u9"` with password `"a"` in the empty store
and verifying with `"a1"` (the password followed by the digit 1) succeeds. -/
theorem C9_witness :
    verify_password sha_id (register_user sha_id ⟨[]⟩ "u9" "e" "a").2 "u9"
      ("a" ++ toString 1) "none" = true :=
  C9_salted_permutation_verifies sha_id ⟨[]⟩ "u9" "e" "a" 1 rfl
    (by decide) (by decide)

/- ------------------------------------------------------------------ -/
/- C10                                                                 -/
/- ------------------------------------------------------------------ -/

/-- C10: `HalvingBlackbox.__call__` returns exactly `f` applied to the
argument, synchronously: the returned value is `f x` for every starting
state, it is independent of the instance state (so the queue never gates,
delays, or substitutes it), and the only state effect is appending a copy
of that same result to the internal queue, which `halving_step` (the
worker's printing loop) alone consumes. -/
theorem C10_halving_call_returns_directly {α β : Type} (s s2 : HalvingState β)
    (f : α → β) (x : α) :
    (halving_call s f x).1 = f x ∧
    (halving_call s f x).1 = (halving_call s2 f x).1 ∧
    (halving_call s f x).2 = { s with queue := s.queue ++ [f x] } :=
  ⟨rfl, rfl, rfl⟩

/- ------------------------------------------------------------------ -/
/- C5                                                                  -/
/- ------------------------------------------------------------------ -/

theorem slow_step_doubling {α : Type} (s : SlowState α)
    (h : s.result_queue = []) (hd : s.doubled = true) :
    slow_step s = { s with interval := s.interval * 2, doubled := false } := by
  unfold slow_step
  rw [if_pos (by rw [h, hd]; rfl)]

theorem slow_step_stalled {α : Type} (s : SlowState α)
    (h : s.result_queue = []) (hd : s.doubled = false) :
    slow_step s = s := by
  unfold slow_step
  rw [if_neg (by rw [h, hd]; simp)]
  rw [h]

theorem slow_iterate_stalled {α : Type} (s : SlowState α)
    (h : s.result_queue = []) (hd : s.doubled = false) (n : Nat) :
    slow_step^[n] s = s := by
  induction n with
  | zero => rfl
  | succ n ih => rw [Function.iterate_succ_apply, slow_step_stalled s h hd, ih]

/-- C5, counterexample: starting from an idle instance (empty queue,
`doubled` flag set, interval 1), the first wake-up doubles the interval to
2, but the second wake-up — also finding the queue empty — leaves it at 2
instead of doubling again to 4 as the claim's "every wake-up that finds the
pending queue empty doubles the interval" requires; the interval does not
grow unboundedly while the instance stays idle. -/
theorem C5_counterexample :
    (slow_step (slow_step (⟨[], [], 1, true, 0⟩ : SlowState Nat))).interval = 2 ∧
    ((2 : ℚ) ≠ 1 * 2 * 2) := by
  constructor
  · norm_num [slow_step]
  · norm_num

/-- C5, amended: a wake-up that finds the pending queue empty doubles the
interval only when the `doubled` flag is set, and clears the flag; a
wake-up that finds the queue empty with the flag clear changes nothing —
so during an uninterrupted idle stretch the interval doubles exactly once
and then stays fixed, rather than growing unboundedly. Every wake-up that
finds the queue non-empty dequeues exactly one item, republishes it on the
output channel, increments the processed count, and re-arms the flag. -/
theorem C5_slow_worker_step (s t : SlowState Nat) (r : Nat) (rest : List Nat)
    (hs : s.result_queue = []) (hd : s.doubled = true)
    (ht : t.result_queue = r :: rest) :
    (∀ n, 1 ≤ n →
      slow_step^[n] s = { s with interval := s.interval * 2, doubled := false }) ∧
    slow_step t = { t with
      result_queue := rest
      output_queue := t.output_queue ++ [r]
      total_processed := t.total_processed + 1
      doubled := true } := by
  constructor
  · intro n hn
    obtain ⟨m, rfl⟩ : ∃ m, n = m + 1 := ⟨n - 1, by omega⟩
    rw [Function.iterate_succ_apply, slow_step_doubling s hs hd,
      slow_iterate_stalled _ (by rw [hs]) rfl m]
  · unfold slow_step
    rw [if_neg (by rw [ht]; simp), ht]

/-- C5, witness: the amended theorem at an idle instance with interval 1
(two wake-ups leave it at 2) and at an instance holding the single queued
item 5. -/
theorem C5_witness :
    (∀ n, 1 ≤ n → slow_step^[n] (⟨[], [], 1, true, 0⟩ : SlowState Nat) =
      ⟨[], [], 1 * 2, false, 0⟩) ∧
    slow_step (⟨[5], [7], 1, false, 3⟩ : SlowState Nat) = ⟨[], [7] ++ [5], 1, true, 3 + 1⟩ :=
  C5_slow_worker_step ⟨[], [], 1, true, 0⟩ ⟨[5], [7], 1, false, 3⟩ 5 [] rfl rfl rfl

/- ------------------------------------------------------------------ -/
/- C8                                                                  -/
/- ------------------------------------------------------------------ -/

theorem flush_poll_exit {α : Type} (timeout : ℚ) :
    ∀ (polls : List (ℚ × SlowState α)) (t : ℚ) (s : SlowState α),
      flush_poll timeout polls = some (t, s) →
      s.result_queue = [] ∨ timeout < t := by
  intro polls
  induction polls with
  | nil =>
    intro t s h
    cases h
  | cons hd rest ih =>
    intro t s h
    obtain ⟨t1, s1⟩ := hd
    unfold flush_poll at h
    by_cases h1 : s1.result_queue.isEmpty
    · rw [if_pos h1] at h
      simp only [Option.some.injEq, Prod.mk.injEq] at h
      obtain ⟨rfl, rfl⟩ := h
      exact Or.inl (List.isEmpty_iff.mp h1)
    · rw [if_neg h1] at h
      by_cases h2 : timeout < t1
      · rw [if_pos h2] at h
        simp only [Option.some.injEq, Prod.mk.injEq] at h
        obtain ⟨rfl, rfl⟩ := h
        exact Or.inr h2
      · rw [if_neg h2] at h
        exact ih t s h

theorem slow_step_mono {α : Type} (s : SlowState α) :
    s.total_processed ≤ (slow_step s).total_processed := by
  unfold slow_step
  by_cases h : (s.result_queue.isEmpty && s.doubled) = true
  · rw [if_pos h]
  · rw [if_neg h]
    rcases hq : s.result_queue with _ | ⟨r, rest⟩
    · exact Nat.le_refl _
    · exact Nat.le_succ _

theorem slow_run_mono {α : Type} :
    ∀ (evts : List (SlowEvt α)) (s0 : SlowState α),
      s0.total_processed ≤ (slow_run evts s0).total_processed := by
  intro evts
  induction evts with
  | nil => intro s0; exact Nat.le_refl _
  | cons e rest ih =>
    intro s0
    cases e with
    | work => exact Nat.le_trans (slow_step_mono s0) (ih (slow_step s0))
    | put x => exact ih (slow_put x s0)

/-- C8, counterexample: `HalvingBlackbox` is a non-trivial Mitigator (it
owns a queue and a worker thread), yet the class defines no `flush`
method at all — `flush()` on it is an `AttributeError`, not an operation
that waits for the queue to drain — refuting the claim for "every
non-trivial Mitigator instance". -/
theorem C8_counterexample :
    nontrivial_mitigation "halving" = true ∧ has_flush "halving" = false :=
  ⟨rfl, rfl⟩

/-- C8, amended: `SlowBlackbox.flush` (the only flush operation the source
defines) returns only after a poll observes the pending queue empty or the
elapsed time exceeds the 10-second timeout, and the `total_processed`
count it returns is monotonically non-decreasing across repeated flush
calls, because no worker wake-up or caller enqueue ever decreases it;
`HalvingBlackbox` provides no flush operation. -/
theorem C8_slow_flush_contract (polls : List (ℚ × SlowState Nat)) (t : ℚ)
    (s : SlowState Nat) (hexit : flush_poll 10 polls = some (t, s)) :
    (s.result_queue = [] ∨ 10 < t) ∧
    (∀ (evts : List (SlowEvt Nat)) (s0 : SlowState Nat),
      s0.total_processed ≤ (slow_run evts s0).total_processed) ∧
    has_flush "slow" = true :=
  ⟨flush_poll_exit 10 polls t s hexit, slow_run_mono, rfl⟩

/-- C8, witness: a flush whose very first poll sees an empty queue exits
there, and the processed count is monotone along every event sequence. -/
theorem C8_witness :
    ((⟨[], [], 1, true, 0⟩ : SlowState Nat).result_queue = [] ∨ (10 : ℚ) < 0) ∧
    (∀ (evts : List (SlowEvt Nat)) (s0 : SlowState Nat),
      s0.total_processed ≤ (slow_run evts s0).total_processed) ∧
    has_flush "slow" = true :=
  C8_slow_flush_contract [(0, ⟨[], [], 1, true, 0⟩)] 0 ⟨[], [], 1, true, 0⟩ rfl

/- ------------------------------------------------------------------ -/
/- C3                                                                  -/
/- ------------------------------------------------------------------ -/

theorem fib_pair_eq_iterate (n : Nat) : fib_pair n = fib_step^[n] (1, 1) := by
  induction n with
  | zero => rfl
  | succ n ih =>
    rw [Function.iterate_succ_apply', ← ih]
    rfl

theorem truncate_data (s : String) (m : Nat) :
    (truncate s m).data = s.data.take m := by
  unfold truncate
  by_cases h : s.length > m
  · rw [if_pos h]
  · rw [if_neg h]
    rw [List.take_of_length_le]
    exact Nat.le_of_not_lt h

theorem hash_value_truncate (p : String) (m : Nat) :
    hash_value (truncate p m) = spec_sum p m := by
  unfold hash_value spec_sum
  rw [truncate_data]
  congr 1
  apply List.map_congr_left
  intro c _
  unfold char_term spec_term
  rw [fib_pair_eq_iterate]

/-- C3: for every non-empty input, the digest equals the fixed-width hash
of the running sum built by advancing the recurrence `(a,b) := (b, a+b)`
exactly code-point-many times per character of the input truncated to the
maximum accepted length 50 (excess truncated, not rejected) and summing the
final terms — and, whenever the fixed-width hash produces 64-character
output (as SHA-256 hex digests do), the result is a string of length 64
regardless of the input's length. -/
theorem C3_digest_algorithm (sha256hex : String → String)
    (h64 : ∀ s, (sha256hex s).length = 64) (p : String)
    (hp : p.isEmpty = false) :
    basic_fib_hash sha256hex p 50 =
      PyVal.pyStr (sha256hex (toString (spec_sum p 50))) ∧
    (sha256hex (toString (spec_sum p 50))).length = 64 := by
  refine ⟨?_, h64 _⟩
  unfold basic_fib_hash
  rw [hp]
  simp only [Bool.false_eq_true, if_false, hash_value_truncate]

/-- C3, witness: the theorem applied to input `"a"` with a concrete
64-character-output stand-in for the fixed-width hash. -/
theorem C3_witness :
    basic_fib_hash sha_const64 "a" 50 =
      PyVal.pyStr (sha_const64 (toString (spec_sum "a" 50))) ∧
    (sha_const64 (toString (spec_sum "a" 50))).length = 64 :=
  C3_digest_algorithm sha_const64
    (fun s => by simp [sha_const64, String.length]) "a" rfl

/- ------------------------------------------------------------------ -/
/- C4                                                                  -/
/- ------------------------------------------------------------------ -/

/-- Soundness of the square-root-free embedding of the separation test: for
a non-negative mean gap and non-negative variances, `distinguishable d vc
vi` holds exactly when the gap exceeds the sum of the standard deviations,
`√vc + √vi < d` — the comparison `calculate_epoch_changes` performs. -/
theorem distinguishable_iff_sqrt (d vc vi : ℚ) (hd : 0 ≤ d) (hvc : 0 ≤ vc)
    (hvi : 0 ≤ vi) :
    distinguishable d vc vi = true ↔
      Real.sqrt (vc : ℝ) + Real.sqrt (vi : ℝ) < (d : ℝ) := by
  have hd' : (0 : ℝ) ≤ (d : ℝ) := by exact_mod_cast hd
  have hvc' : (0 : ℝ) ≤ (vc : ℝ) := by exact_mod_cast hvc
  have hvi' : (0 : ℝ) ≤ (vi : ℝ) := by exact_mod_cast hvi
  set a := Real.sqrt (vc : ℝ) with ha_def
  set b := Real.sqrt (vi : ℝ) with hb_def
  have ha : a ^ 2 = (vc : ℝ) := Real.sq_sqrt hvc'
  have hb : b ^ 2 = (vi : ℝ) := Real.sq_sqrt hvi'
  have ha0 : 0 ≤ a := Real.sqrt_nonneg _
  have hb0 : 0 ≤ b := Real.sqrt_nonneg _
  have hab : 0 ≤ a * b := mul_nonneg ha0 hb0
  unfold distinguishable
  rw [Bool.and_eq_true, decide_eq_true_eq, decide_eq_true_eq]
  have hcast1 : (0 < d ^ 2 - vc - vi) ↔ (0 : ℝ) < (d : ℝ) ^ 2 - vc - vi := by
    constructor <;> intro h <;> [exact_mod_cast h; exact_mod_cast h]
  have hcast2 : (4 * vc * vi < (d ^ 2 - vc - vi) ^ 2) ↔
      (4 * (vc : ℝ) * (vi : ℝ) < ((d : ℝ) ^ 2 - vc - vi) ^ 2) := by
    constructor <;> intro h <;> [exact_mod_cast h; exact_mod_cast h]
  rw [hcast1, hcast2, ← ha, ← hb]
  constructor
  · rintro ⟨h1, h2⟩
    have h2ab : 2 * (a * b) < (d : ℝ) ^ 2 - a ^ 2 - b ^ 2 := by
      nlinarith [hab, h1, h2]
    have hsq : (a + b) ^ 2 < (d : ℝ) ^ 2 := by nlinarith [h2ab]
    exact (pow_lt_pow_iff_left₀ (add_nonneg ha0 hb0) hd' two_ne_zero).mp hsq
  · intro h
    have hsq : (a + b) ^ 2 < (d : ℝ) ^ 2 :=
      (pow_lt_pow_iff_left₀ (add_nonneg ha0 hb0) hd' two_ne_zero).mpr h
    constructor
    · nlinarith [hab, hsq]
    · nlinarith [hab, hsq]

theorem epoch_for_cases (results : List TrialResult) :
    epoch_for results = EpochResult.insufficientData ∨
    epoch_for results = EpochResult.calcError ∨
    epoch_for results = EpochResult.score 0 ∨
    epoch_for results = EpochResult.score 1 := by
  unfold epoch_for
  split_ifs <;> simp

/-- C4, counterexample: the leakage-scoring operation the source implements
(`calculate_epoch_changes`) takes no quantum width and does not count
bucket transitions: on a result set whose correct durations are {1 s, 2 s}
and incorrect durations are {5 s, 6 s}, the completely separated ranges
make it return 1, whereas the claimed adjacent-bucket-transition count
(`scoreLeakage_claim`, with quantum width 1) is 3 on the same recorded
sequence. -/
theorem C4_counterexample :
    calculate_epoch_changes res_c4 = [("slow", EpochResult.score 1)] ∧
    scoreLeakage_claim res_c4 1 = [("slow", 3)] ∧
    EpochResult.score 1 ≠ EpochResult.score 3 := by
  refine ⟨?_, ?_, by simp⟩
  · norm_num [calculate_epoch_changes, res_c4, epoch_for, correct_times_of,
      incorrect_times_of, list_max, list_min]
    rintro (h | h) <;> simp at h
  · norm_num [scoreLeakage_claim, res_c4, count_changes]

/-- C4, amended: `calculate_epoch_changes` (which takes no quantum-width
parameter) maps each strategy name to: an insufficient-data marker when the
correct or the incorrect duration group is empty; 1 when the two groups'
ranges are completely separated; an error marker when the standard-
deviation test is reached with fewer than two samples in either group; and
otherwise 1 or 0 according to whether the gap between the group means
exceeds the sum of the sample standard deviations. In particular every
numeric score it returns is a non-negative integer (0 or 1). -/
theorem C4_epoch_changes_range (all_results : List (String × List TrialResult))
    (name : String) (r : EpochResult)
    (h : (name, r) ∈ calculate_epoch_changes all_results) :
    r = EpochResult.insufficientData ∨ r = EpochResult.calcError ∨
    r = EpochResult.score 0 ∨ r = EpochResult.score 1 := by
  unfold calculate_epoch_changes at h
  rw [List.mem_map] at h
  obtain ⟨p, hp, heq⟩ := h
  have hr : r = epoch_for p.2 := by
    have := congrArg Prod.snd heq
    simpa using this.symm
  rw [hr]
  exact epoch_for_cases p.2

/-- C4, witness: the amended theorem at the concrete result set `res_c4`,
whose recorded score for `"slow"` is 1. -/
theorem C4_witness :
    EpochResult.score 1 = EpochResult.insufficientData ∨
    EpochResult.score 1 = EpochResult.calcError ∨
    EpochResult.score 1 = EpochResult.score 0 ∨
    EpochResult.score 1 = EpochResult.score 1 :=
  C4_epoch_changes_range res_c4 "slow" (EpochResult.score 1) (by
    have hcalc : calculate_epoch_changes res_c4 = [("slow", EpochResult.score 1)] := by
      norm_num [calculate_epoch_changes, res_c4, epoch_for, correct_times_of,
        incorrect_times_of, list_max, list_min]
      rintro (h | h) <;> simp at h
    rw [hcalc]
    simp)
